import Mathlib

/-!
Verification of the block-sparse linear-algebra primitives in
theano/sandbox/blocksparse.py: the SparseBlockGemv and SparseBlockOuter
operations, their CPU perform loops, node construction and the gradient
rules.  Tensors are embedded as total curried functions from natural-number
indices to rationals (exact arithmetic standing in for the host's
floating-point type); the numpy loops are embedded as left folds over
List.range mirroring the source's nested for-loops.
-/

/-- A rank-3 tensor, indexed (batch, window, size). Entries outside the
declared bounds are irrelevant junk, as for a numpy array view. -/
abbrev Tensor3 : Type := ℕ → ℕ → ℕ → ℚ

/-- A rank-4 tensor, indexed (block0, block1, size0, size1). -/
abbrev Tensor4 : Type := ℕ → ℕ → ℕ → ℕ → ℚ

/-- A rank-2 integral index tensor, indexed (batch, window). -/
abbrev Idx2 : Type := ℕ → ℕ → ℕ

/-- Models numpy.dot of a row vector (length n) with an (n x m) matrix:
component k of the product. -/
def dotVM (n : ℕ) (v : ℕ → ℚ) (m : ℕ → ℕ → ℚ) (k : ℕ) : ℚ :=
  ∑ l ∈ Finset.range n, v l * m l k

/-- Models the numpy slice assignment o[b, j, :] = g: replace row (b, j)
of a rank-3 array by the vector g. -/
def updRow (a : Tensor3) (b j : ℕ) (g : ℕ → ℚ) : Tensor3 :=
  fun b2 j2 k => if b2 = b ∧ j2 = j then g k else a b2 j2 k

/-- Models the numpy slice assignment o[p, q] = g: replace block (p, q)
of a rank-4 array by the matrix g. -/
def updBlk (a : Tensor4) (p q : ℕ) (g : ℕ → ℕ → ℚ) : Tensor4 :=
  fun p2 q2 s t => if p2 = p ∧ q2 = q then g s t else a p2 q2 s t

/-- Body of the innermost loop of CpuSparseBlockGemv.perform:
o[b, j, :] += numpy.dot(h[b, i], W[iIdx[b, i], oIdx[b, j]]). -/
def gemvStepI (iSize : ℕ) (W : Tensor4) (h : Tensor3) (iIdx oIdx : Idx2)
    (b j : ℕ) (a : Tensor3) (i : ℕ) : Tensor3 :=
  updRow a b j (fun k => a b j k + dotVM iSize (h b i) (W (iIdx b i) (oIdx b j)) k)

/-- The loop `for i in range(h.shape[1])` of CpuSparseBlockGemv.perform. -/
def gemvStepJ (iWin iSize : ℕ) (W : Tensor4) (h : Tensor3) (iIdx oIdx : Idx2)
    (b : ℕ) (a : Tensor3) (j : ℕ) : Tensor3 :=
  (List.range iWin).foldl (gemvStepI iSize W h iIdx oIdx b j) a

/-- The loop `for j in range(o.shape[1])` of CpuSparseBlockGemv.perform. -/
def gemvStepB (oWin iWin iSize : ℕ) (W : Tensor4) (h : Tensor3) (iIdx oIdx : Idx2)
    (a : Tensor3) (b : ℕ) : Tensor3 :=
  (List.range oWin).foldl (gemvStepJ iWin iSize W h iIdx oIdx b) a

/-- CpuSparseBlockGemv.perform (src/theano/sandbox/blocksparse.py lines
180-193): the nested loops over batch, output window and input window,
accumulating dot products into (a copy of) o. -/
def gemvPerform (batch oWin iWin iSize : ℕ) (o : Tensor3) (W : Tensor4)
    (h : Tensor3) (iIdx oIdx : Idx2) : Tensor3 :=
  (List.range batch).foldl (gemvStepB oWin iWin iSize W h iIdx oIdx) o

/-- Body of the innermost loop of CpuSparseBlockOuter.perform:
o[xIdx[b, i], yIdx[b, j]] += numpy.outer(x[b, i], y[b, j, :]).
Note the alpha input of the op is not read by the CPU perform loop. -/
def outerStepJ (x y : Tensor3) (xIdx yIdx : Idx2) (b i : ℕ)
    (a : Tensor4) (j : ℕ) : Tensor4 :=
  updBlk a (xIdx b i) (yIdx b j)
    (fun s t => a (xIdx b i) (yIdx b j) s t + x b i s * y b j t)

/-- The loop `for j in range(yIdx.shape[1])` of CpuSparseBlockOuter.perform. -/
def outerStepI (yWin : ℕ) (x y : Tensor3) (xIdx yIdx : Idx2) (b : ℕ)
    (a : Tensor4) (i : ℕ) : Tensor4 :=
  (List.range yWin).foldl (outerStepJ x y xIdx yIdx b i) a

/-- The loop `for i in range(xIdx.shape[1])` of CpuSparseBlockOuter.perform. -/
def outerStepB (xWin yWin : ℕ) (x y : Tensor3) (xIdx yIdx : Idx2)
    (a : Tensor4) (b : ℕ) : Tensor4 :=
  (List.range xWin).foldl (outerStepI yWin x y xIdx yIdx b) a

/-- CpuSparseBlockOuter.perform (src/theano/sandbox/blocksparse.py lines
206-217): the nested loops over batch, x window and y window, scatter-adding
outer products into (a copy of) o.  The alpha argument is bound by the
source (`o, x, y, xIdx, yIdx, alpha = inp[:6]`) but never used in the loop
body, which this embedding reproduces. -/
def outerPerform (batch xWin yWin : ℕ) (o : Tensor4) (x y : Tensor3)
    (xIdx yIdx : Idx2) (alpha : ℚ) : Tensor4 :=
  (List.range batch).foldl (outerStepB xWin yWin x y xIdx yIdx) o

/-- Generic evaluation lemma for a left fold whose every step adds a
state-independent contribution at any fixed observation point. -/
theorem foldl_addStep {σ α : Type} (ev : σ → ℚ) (step : σ → α → σ) (g : α → ℚ)
    (hstep : ∀ a e, ev (step a e) = ev a + g e) :
    ∀ (L : List α) (acc : σ), ev (L.foldl step acc) = ev acc + (L.map g).sum := by
  intro L
  induction L with
  | nil => intro acc; simp
  | cons e L ih =>
      intro acc
      rw [List.foldl_cons, ih (step acc e), hstep, List.map_cons, List.sum_cons]
      ring

/-- The sum of a function mapped over List.range agrees with the Finset sum. -/
theorem sum_map_range (f : ℕ → ℚ) (n : ℕ) :
    ((List.range n).map f).sum = ∑ i ∈ Finset.range n, f i := by
  induction n with
  | zero => simp
  | succ n ih => rw [List.range_succ, List.map_append, List.sum_append,
      Finset.sum_range_succ, ih]; simp

/-- Pointwise effect of one innermost gemv step. -/
theorem gemvStepI_eval (iSize : ℕ) (W : Tensor4) (h : Tensor3) (iIdx oIdx : Idx2)
    (b j : ℕ) (a : Tensor3) (i b2 j2 k : ℕ) :
    gemvStepI iSize W h iIdx oIdx b j a i b2 j2 k =
      a b2 j2 k + (if b2 = b ∧ j2 = j then
        dotVM iSize (h b i) (W (iIdx b i) (oIdx b j)) k else 0) := by
  unfold gemvStepI updRow
  by_cases hc : b2 = b ∧ j2 = j
  · obtain ⟨h1, h2⟩ := hc
    subst h1; subst h2
    simp
  · simp [hc]

/-- Pointwise effect of the input-window loop of gemv at fixed (b, j). -/
theorem gemvStepJ_eval (iWin iSize : ℕ) (W : Tensor4) (h : Tensor3)
    (iIdx oIdx : Idx2) (b : ℕ) (a : Tensor3) (j b2 j2 k : ℕ) :
    gemvStepJ iWin iSize W h iIdx oIdx b a j b2 j2 k =
      a b2 j2 k + (if b2 = b ∧ j2 = j then
        ∑ i ∈ Finset.range iWin,
          dotVM iSize (h b i) (W (iIdx b i) (oIdx b j)) k else 0) := by
  unfold gemvStepJ
  rw [foldl_addStep (fun s => s b2 j2 k) (gemvStepI iSize W h iIdx oIdx b j)
    (fun i => if b2 = b ∧ j2 = j then
      dotVM iSize (h b i) (W (iIdx b i) (oIdx b j)) k else 0)
    (fun a i => gemvStepI_eval iSize W h iIdx oIdx b j a i b2 j2 k)
    (List.range iWin) a, sum_map_range]
  by_cases hc : b2 = b ∧ j2 = j
  · simp [hc]
  · simp [hc]

/-- Pointwise effect of the output-window loop of gemv at fixed batch
index bb. -/
theorem gemvStepB_eval (oWin iWin iSize : ℕ) (W : Tensor4) (h : Tensor3)
    (iIdx oIdx : Idx2) (a : Tensor3) (bb b2 j2 k : ℕ) :
    gemvStepB oWin iWin iSize W h iIdx oIdx a bb b2 j2 k =
      a b2 j2 k + (if b2 = bb ∧ j2 < oWin then
        ∑ i ∈ Finset.range iWin,
          dotVM iSize (h bb i) (W (iIdx bb i) (oIdx bb j2)) k else 0) := by
  unfold gemvStepB
  rw [foldl_addStep (fun s => s b2 j2 k) (gemvStepJ iWin iSize W h iIdx oIdx bb)
    (fun j => if b2 = bb ∧ j2 = j then
      ∑ i ∈ Finset.range iWin,
        dotVM iSize (h bb i) (W (iIdx bb i) (oIdx bb j)) k else 0)
    (fun a j => gemvStepJ_eval iWin iSize W h iIdx oIdx bb a j b2 j2 k)
    (List.range oWin) a, sum_map_range]
  by_cases hb2 : b2 = bb
  · simp only [hb2, true_and]
    rw [Finset.sum_ite_eq (Finset.range oWin) j2
      (fun j => ∑ i ∈ Finset.range iWin,
        dotVM iSize (h bb i) (W (iIdx bb i) (oIdx bb j)) k)]
    simp [Finset.mem_range]
  · simp [hb2]

/-- Closed form of the CPU gemv loop: for an in-range batch index and
output-window position, the result row is the initial row plus the sum of
the dot-product contributions of every input-window position. -/
theorem gemvPerform_eval (batch oWin iWin iSize : ℕ) (o : Tensor3)
    (W : Tensor4) (h : Tensor3) (iIdx oIdx : Idx2) (b j k : ℕ)
    (hb : b < batch) (hj : j < oWin) :
    gemvPerform batch oWin iWin iSize o W h iIdx oIdx b j k =
      o b j k + ∑ i ∈ Finset.range iWin,
        dotVM iSize (h b i) (W (iIdx b i) (oIdx b j)) k := by
  unfold gemvPerform
  rw [foldl_addStep (fun s => s b j k) (gemvStepB oWin iWin iSize W h iIdx oIdx)
    (fun bb => if b = bb ∧ j < oWin then
      ∑ i ∈ Finset.range iWin,
        dotVM iSize (h bb i) (W (iIdx bb i) (oIdx bb j)) k else 0)
    (fun a bb => gemvStepB_eval oWin iWin iSize W h iIdx oIdx a bb b j k)
    (List.range batch) o, sum_map_range]
  simp only [hj, and_true]
  rw [Finset.sum_ite_eq (Finset.range batch) b
    (fun bb => ∑ i ∈ Finset.range iWin,
      dotVM iSize (h bb i) (W (iIdx bb i) (oIdx bb j)) k)]
  simp [Finset.mem_range, hb]

/-- Pointwise effect of one innermost outer-product step. -/
theorem outerStepJ_eval (x y : Tensor3) (xIdx yIdx : Idx2) (b i : ℕ)
    (a : Tensor4) (j p q s t : ℕ) :
    outerStepJ x y xIdx yIdx b i a j p q s t =
      a p q s t + (if p = xIdx b i ∧ q = yIdx b j then
        x b i s * y b j t else 0) := by
  unfold outerStepJ updBlk
  by_cases hc : p = xIdx b i ∧ q = yIdx b j
  · obtain ⟨h1, h2⟩ := hc
    rw [if_pos ⟨h1, h2⟩, h1, h2]
    simp
  · simp [hc]

/-- Pointwise effect of the y-window loop of the outer op at fixed (b, i). -/
theorem outerStepI_eval (yWin : ℕ) (x y : Tensor3) (xIdx yIdx : Idx2)
    (b : ℕ) (a : Tensor4) (i p q s t : ℕ) :
    outerStepI yWin x y xIdx yIdx b a i p q s t =
      a p q s t + ∑ j ∈ Finset.range yWin,
        (if p = xIdx b i ∧ q = yIdx b j then x b i s * y b j t else 0) := by
  unfold outerStepI
  rw [foldl_addStep (fun v => v p q s t) (outerStepJ x y xIdx yIdx b i)
    (fun j => if p = xIdx b i ∧ q = yIdx b j then x b i s * y b j t else 0)
    (fun a j => outerStepJ_eval x y xIdx yIdx b i a j p q s t)
    (List.range yWin) a, sum_map_range]

/-- Pointwise effect of the x-window loop of the outer op at fixed batch
index bb. -/
theorem outerStepB_eval (xWin yWin : ℕ) (x y : Tensor3) (xIdx yIdx : Idx2)
    (a : Tensor4) (bb p q s t : ℕ) :
    outerStepB xWin yWin x y xIdx yIdx a bb p q s t =
      a p q s t + ∑ i ∈ Finset.range xWin, ∑ j ∈ Finset.range yWin,
        (if p = xIdx bb i ∧ q = yIdx bb j then x bb i s * y bb j t else 0) := by
  unfold outerStepB
  rw [foldl_addStep (fun v => v p q s t) (outerStepI yWin x y xIdx yIdx bb)
    (fun i => ∑ j ∈ Finset.range yWin,
      (if p = xIdx bb i ∧ q = yIdx bb j then x bb i s * y bb j t else 0))
    (fun a i => outerStepI_eval yWin x y xIdx yIdx bb a i p q s t)
    (List.range xWin) a, sum_map_range]

/-- Closed form of the CPU outer-product loop: every entry of the result
is the corresponding entry of o plus the sum, over all in-range
(batch, x-window, y-window) triples whose index pair hits this block, of
the corresponding outer-product entry.  The alpha argument does not occur
on the right-hand side: the loop never reads it. -/
theorem outerPerform_eval (batch xWin yWin : ℕ) (o : Tensor4) (x y : Tensor3)
    (xIdx yIdx : Idx2) (alpha : ℚ) (p q s t : ℕ) :
    outerPerform batch xWin yWin o x y xIdx yIdx alpha p q s t =
      o p q s t + ∑ b ∈ Finset.range batch, ∑ i ∈ Finset.range xWin,
        ∑ j ∈ Finset.range yWin,
          (if p = xIdx b i ∧ q = yIdx b j then x b i s * y b j t else 0) := by
  unfold outerPerform
  rw [foldl_addStep (fun v => v p q s t) (outerStepB xWin yWin x y xIdx yIdx)
    (fun b => ∑ i ∈ Finset.range xWin, ∑ j ∈ Finset.range yWin,
      (if p = xIdx b i ∧ q = yIdx b j then x b i s * y b j t else 0))
    (fun a b => outerStepB_eval xWin yWin x y xIdx yIdx a b p q s t)
    (List.range batch) o, sum_map_range]

/-- The numeric element types relevant to these ops (theano tensor dtypes). -/
inductive Dtype where
  | float32 | float64
  | int8 | int16 | int32 | int64
  | uint8 | uint16 | uint32 | uint64
deriving DecidableEq, Repr

/-- Modelled from the spec: theano.tensor.discrete_dtypes is defined outside
src/ ("index dtypes must be integral"); the integer dtypes are the discrete
ones, the floating dtypes are not. -/
def Dtype.isDiscrete : Dtype → Bool
  | .float32 => false
  | .float64 => false
  | _ => true

/-- The symbolic metadata of a tensor variable: its rank and element type. -/
structure TensorMeta where
  ndim : ℕ
  dtype : Dtype
deriving DecidableEq, Repr

/-- The Python exceptions raised by this module's construction and gradient
code paths. -/
inductive PyError where
  | typeError (msg : String)
  | assertionError
  | notImplementedError (msg : String)
deriving DecidableEq, Repr

/-- A scalar graph constant carrying a dtype and a value, as produced by
tensor.constant(numpy.asarray(1.0, dtype=float32)). -/
structure ScalarConst where
  dtype : Dtype
  value : ℚ
deriving DecidableEq, Repr

/-- SparseBlockGemv.make_node (src/theano/sandbox/blocksparse.py lines
30-82): rank checks on o, W, h, inputIdx, outputIdx in source order (with
the source's error strings), then the discrete-dtype assertions on the two
index tensors, then the output variable with o's rank and dtype. -/
def SparseBlockGemv_make_node (o W h inputIdx outputIdx : TensorMeta) :
    Except PyError TensorMeta :=
  if o.ndim ≠ 3 then
    .error (.typeError "The output o must be a 2D tensor")
  else if W.ndim ≠ 4 then
    .error (.typeError "The weight matrix W must be a 4D tensor")
  else if h.ndim ≠ 3 then
    .error (.typeError "The input h must be a 3D tensor")
  else if inputIdx.ndim ≠ 2 then
    .error (.typeError "The input indices inputIdx must be a 2D tensor")
  else if outputIdx.ndim ≠ 2 then
    .error (.typeError "The output indices outputIdx must be a 2D tensor")
  else if ¬ inputIdx.dtype.isDiscrete then
    .error .assertionError
  else if ¬ outputIdx.dtype.isDiscrete then
    .error .assertionError
  else
    .ok ⟨o.ndim, o.dtype⟩

/-- The graph node built by SparseBlockOuter.make_node: its six inputs
(the sixth being the alpha scalar) and its output variable. -/
structure OuterNode where
  o : TensorMeta
  x : TensorMeta
  y : TensorMeta
  xIdx : TensorMeta
  yIdx : TensorMeta
  alpha : ScalarConst
  output : TensorMeta
deriving DecidableEq, Repr

/-- SparseBlockOuter.make_node (src/theano/sandbox/blocksparse.py lines
120-160): builds the constant one = float32 1.0, substitutes it when alpha
is absent, and returns the node.  It performs no rank or dtype checks on
any argument. -/
def SparseBlockOuter_make_node (o x y xIdx yIdx : TensorMeta)
    (alpha : Option ScalarConst) : Except PyError OuterNode :=
  let one : ScalarConst := ⟨Dtype.float32, 1⟩
  let a : ScalarConst := match alpha with
    | none => one
    | some al => al
  .ok ⟨o, x, y, xIdx, yIdx, a, ⟨o.ndim, o.dtype⟩⟩

/-- SparseBlockOuter.grad (src/theano/sandbox/blocksparse.py lines
165-167): unconditionally raises NotImplementedError. -/
def SparseBlockOuter_grad (inputs output_gradients : List TensorMeta) :
    Except PyError (List TensorMeta) :=
  .error (.notImplementedError "SparseBlockOuter has no gradient implemented")

/-- SparseBlockGemv.grad (src/theano/sandbox/blocksparse.py lines 87-101),
evaluated denotationally on concrete tensors: given the op's inputs and the
upstream gradient go, return (ograd, Wgrad, hgrad).  Wgrad is the
SparseBlockOuter call on W.zeros_like() with h and go (default alpha, the
float32 constant 1); hgrad is the SparseBlockGemv call on h.zeros_like()
with W.dimshuffle((1, 0, 3, 2)) and the two index tensors swapped; ograd
is go itself.  The index-tensor gradients are grad_undefined and carry no
tensor value. -/
def SparseBlockGemv_grad (batch oWin iWin iSize oSize : ℕ) (W : Tensor4)
    (h : Tensor3) (iIdx oIdx : Idx2) (go : Tensor3) :
    Tensor3 × Tensor4 × Tensor3 :=
  let Wgrad : Tensor4 :=
    outerPerform batch iWin oWin (fun _ _ _ _ => 0) h go iIdx oIdx 1
  let hgrad : Tensor3 :=
    gemvPerform batch iWin oWin oSize (fun _ _ _ => 0)
      (fun p q s t => W q p t s) go oIdx iIdx
  (go, Wgrad, hgrad)

/-- From the spec's words: the weight tensor with block axes 0 and 1
swapped and inner axes 2 and 3 swapped. -/
def specTransposeW (W : Tensor4) : Tensor4 := fun p q s t => W q p t s

/-- From the spec's words: zeros_like of a rank-3 tensor. -/
def specZeros3 : Tensor3 := fun _ _ _ => 0

/-- From the spec's words: zeros_like of a rank-4 tensor. -/
def specZeros4 : Tensor4 := fun _ _ _ _ => 0

/-- A call to the CPU gemv kernel in a given mode, returning the pair
(result handed to out_, contents of the caller's o buffer afterwards).
The source copies o first unless inplace, then runs the same loops either
way, so the caller's buffer is the result exactly when inplace. -/
def CpuSparseBlockGemv_run (inplace : Bool) (batch oWin iWin iSize : ℕ)
    (o : Tensor3) (W : Tensor4) (h : Tensor3) (iIdx oIdx : Idx2) :
    Tensor3 × Tensor3 :=
  let res := gemvPerform batch oWin iWin iSize o W h iIdx oIdx
  (res, if inplace then res else o)

/-- A call to the CPU outer kernel in a given mode, returning the pair
(result handed to out_, contents of the caller's o buffer afterwards). -/
def CpuSparseBlockOuter_run (inplace : Bool) (batch xWin yWin : ℕ)
    (o : Tensor4) (x y : Tensor3) (xIdx yIdx : Idx2) (alpha : ℚ) :
    Tensor4 × Tensor4 :=
  let res := outerPerform batch xWin yWin o x y xIdx yIdx alpha
  (res, if inplace then res else o)

/-- Models numpy take along axis 0: b.take(outputIdx, axis=0) gathers
the rows of the bias matrix named by the index tensor, giving the rank-3
tensor whose (b2, j, k) entry is bias[outputIdx[b2, j], k]. -/
def takeRows (bias : ℕ → ℕ → ℚ) (outputIdx : Idx2) : Tensor3 :=
  fun b2 j k => bias (outputIdx b2 j) k

/-- sparse_block_dot (src/theano/sandbox/blocksparse.py lines 231-266) on
already-batched (rank-3) inputs: delegate to SparseBlockGemv with the
bias rows gathered at outputIdx as the o argument. -/
def sparse_block_dot (batch oWin iWin iSize : ℕ) (W : Tensor4) (h : Tensor3)
    (inputIdx : Idx2) (bias : ℕ → ℕ → ℚ) (outputIdx : Idx2) : Tensor3 :=
  gemvPerform batch oWin iWin iSize (takeRows bias outputIdx) W h
    inputIdx outputIdx

/-- C1: for every valid BlockGemv input and every in-range batch index b
and output-window position j, result[b, j, :] equals o[b, j, :] plus the
sum over all input-window positions i of the vector-matrix product of
h[b, i, :] with the sub-matrix W[inputIdx[b, i], outputIdx[b, j], :, :]. -/
theorem claim1_gemv_forward (batch oWin iWin iSize : ℕ) (o : Tensor3)
    (W : Tensor4) (h : Tensor3) (iIdx oIdx : Idx2) (b j k : ℕ)
    (hb : b < batch) (hj : j < oWin) :
    gemvPerform batch oWin iWin iSize o W h iIdx oIdx b j k =
      o b j k + ∑ i ∈ Finset.range iWin, ∑ l ∈ Finset.range iSize,
        h b i l * W (iIdx b i) (oIdx b j) l k := by
  rw [gemvPerform_eval batch oWin iWin iSize o W h iIdx oIdx b j k hb hj]
  rfl

/-- Witness for C1 at batch = oWin = iWin = iSize = 1 with o = 2, W = 3,
h = 5: the result entry is 2 + 5 * 3 = 17. -/
theorem claim1_gemv_forward_witness :
    ((0 : ℕ) < 1 ∧ (0 : ℕ) < 1) ∧
    gemvPerform 1 1 1 1 (fun _ _ _ => 2) (fun _ _ _ _ => 3) (fun _ _ _ => 5)
      (fun _ _ => 0) (fun _ _ => 0) 0 0 0 = 17 := by
  refine ⟨⟨Nat.zero_lt_one, Nat.zero_lt_one⟩, ?_⟩
  rw [claim1_gemv_forward 1 1 1 1 (fun _ _ _ => 2) (fun _ _ _ _ => 3)
    (fun _ _ _ => 5) (fun _ _ => 0) (fun _ _ => 0) 0 0 0
    Nat.zero_lt_one Nat.zero_lt_one]
  norm_num

/-- C2 (code bug): CpuSparseBlockOuter.perform never reads its alpha
input, although the class docstring and the spec say every outer-product
term is scaled by alpha before accumulation.  At the concrete input with
alpha = 2, o = 0 and x = y = 1 on 1-entry blocks, the loop produces 1 at
block (0, 0), while the documented semantics require 0 + 2 * (1 * 1) = 2. -/
theorem claim2_alpha_ignored :
    outerPerform 1 1 1 (fun _ _ _ _ => 0) (fun _ _ _ => 1) (fun _ _ _ => 1)
      (fun _ _ => 0) (fun _ _ => 0) 2 0 0 0 0 = 1 ∧
    ((0 : ℚ) + 2 * (1 * 1)) ≠ 1 := by
  constructor
  · rw [outerPerform_eval]
    simp
  · norm_num

/-- C3: the gradient with respect to h returned by SparseBlockGemv.grad
is exactly the forward kernel applied to zeros_like(h), the weight tensor
with block axes 0 and 1 swapped and inner axes 2 and 3 swapped, go as the
sparse input, and the two index tensors swapped. -/
theorem claim3_hgrad_structure (batch oWin iWin iSize oSize : ℕ)
    (W : Tensor4) (h : Tensor3) (iIdx oIdx : Idx2) (go : Tensor3) :
    (SparseBlockGemv_grad batch oWin iWin iSize oSize W h iIdx oIdx go).2.2 =
      gemvPerform batch iWin oWin oSize specZeros3 (specTransposeW W) go
        oIdx iIdx := rfl

/-- C4: the gradient with respect to W returned by SparseBlockGemv.grad
is exactly one SparseBlockOuter call on zeros_like(W) with h and go as the
two vector sets and inputIdx, outputIdx as the two index tensors, and the
gradient with respect to o is go unchanged. -/
theorem claim4_wgrad_ograd (batch oWin iWin iSize oSize : ℕ) (W : Tensor4)
    (h : Tensor3) (iIdx oIdx : Idx2) (go : Tensor3) :
    (SparseBlockGemv_grad batch oWin iWin iSize oSize W h iIdx oIdx go).2.1 =
      outerPerform batch iWin oWin specZeros4 h go iIdx oIdx 1 ∧
    (SparseBlockGemv_grad batch oWin iWin iSize oSize W h iIdx oIdx go).1 =
      go :=
  ⟨rfl, rfl⟩

/-- C5: when exactly two distinct in-range (batch, x-window, y-window)
triples map to the destination pair (p, q), the result block there holds
o plus the sum of both contributed outer products, not only the
last-written one. -/
theorem claim5_scatter_add (batch xWin yWin : ℕ) (o : Tensor4)
    (x y : Tensor3) (xIdx yIdx : Idx2) (alpha : ℚ)
    (b1 i1 j1 b2 i2 j2 p q s t : ℕ)
    (hne : (b1, i1, j1) ≠ (b2, i2, j2))
    (hb1 : b1 < batch) (hi1 : i1 < xWin) (hj1 : j1 < yWin)
    (hb2 : b2 < batch) (hi2 : i2 < xWin) (hj2 : j2 < yWin)
    (hx1 : xIdx b1 i1 = p) (hy1 : yIdx b1 j1 = q)
    (hx2 : xIdx b2 i2 = p) (hy2 : yIdx b2 j2 = q)
    (honly : ∀ b i j, b < batch → i < xWin → j < yWin →
      xIdx b i = p → yIdx b j = q →
      (b, i, j) = (b1, i1, j1) ∨ (b, i, j) = (b2, i2, j2)) :
    outerPerform batch xWin yWin o x y xIdx yIdx alpha p q s t =
      o p q s t + (x b1 i1 s * y b1 j1 t + x b2 i2 s * y b2 j2 t) := by
  rw [outerPerform_eval]
  congr 1
  have hprod :
      (∑ e ∈ (Finset.range batch) ×ˢ ((Finset.range xWin) ×ˢ (Finset.range yWin)),
        (if p = xIdx e.1 e.2.1 ∧ q = yIdx e.1 e.2.2 then
          x e.1 e.2.1 s * y e.1 e.2.2 t else 0)) =
      ∑ b ∈ Finset.range batch, ∑ i ∈ Finset.range xWin,
        ∑ j ∈ Finset.range yWin,
          (if p = xIdx b i ∧ q = yIdx b j then x b i s * y b j t else 0) := by
    rw [Finset.sum_product]
    refine Finset.sum_congr rfl (fun b _ => ?_)
    rw [Finset.sum_product]
  rw [← hprod]
  have h1 : ((b1, i1, j1) : ℕ × ℕ × ℕ) ∈
      (Finset.range batch) ×ˢ ((Finset.range xWin) ×ˢ (Finset.range yWin)) := by
    simp [Finset.mem_product, Finset.mem_range, hb1, hi1, hj1]
  have h2 : ((b2, i2, j2) : ℕ × ℕ × ℕ) ∈
      ((Finset.range batch) ×ˢ ((Finset.range xWin) ×ˢ (Finset.range yWin))).erase
        (b1, i1, j1) := by
    refine Finset.mem_erase.mpr ⟨Ne.symm hne, ?_⟩
    simp [Finset.mem_product, Finset.mem_range, hb2, hi2, hj2]
  rw [← Finset.add_sum_erase _ _ h1, ← Finset.add_sum_erase _ _ h2]
  have hz : (∑ e ∈
      ((((Finset.range batch) ×ˢ ((Finset.range xWin) ×ˢ (Finset.range yWin))).erase
        (b1, i1, j1)).erase (b2, i2, j2)),
        (if p = xIdx e.1 e.2.1 ∧ q = yIdx e.1 e.2.2 then
          x e.1 e.2.1 s * y e.1 e.2.2 t else 0)) = 0 := by
    refine Finset.sum_eq_zero (fun e he => ?_)
    have he2 := Finset.mem_erase.mp he
    have he1 := Finset.mem_erase.mp he2.2
    have hmem := he1.2
    rw [Finset.mem_product, Finset.mem_product] at hmem
    simp only [Finset.mem_range] at hmem
    by_cases hc : p = xIdx e.1 e.2.1 ∧ q = yIdx e.1 e.2.2
    · exfalso
      have := honly e.1 e.2.1 e.2.2 hmem.1 hmem.2.1 hmem.2.2
        hc.1.symm hc.2.symm
      rcases this with heq | heq
      · exact he1.1 (by rw [← heq])
      · exact he2.1 (by rw [← heq])
    · simp [hc]
  rw [hz, hx1, hy1, hx2, hy2]
  simp

/-- Witness for C5: batch = 2 with both batch entries hitting block
(0, 0); the block sums both outer products: 0 + (1 * 1 + 2 * 1) = 3. -/
theorem claim5_scatter_add_witness :
    ((0, 0, 0) : ℕ × ℕ × ℕ) ≠ (1, 0, 0) ∧
    outerPerform 2 1 1 (fun _ _ _ _ => 0) (fun b _ _ => (b : ℚ) + 1)
      (fun _ _ _ => 1) (fun _ _ => 0) (fun _ _ => 0) 5 0 0 0 0 = 3 := by
  refine ⟨by decide, ?_⟩
  have H := claim5_scatter_add 2 1 1 (fun _ _ _ _ => 0)
    (fun b _ _ => (b : ℚ) + 1) (fun _ _ _ => 1) (fun _ _ => 0) (fun _ _ => 0)
    5 0 0 0 1 0 0 0 0 0 0 (by decide)
    (by decide) (by decide) (by decide) (by decide) (by decide) (by decide)
    rfl rfl rfl rfl
    (by
      intro b i j hb hi hj _ _
      interval_cases b <;> interval_cases i <;> interval_cases j <;> decide)
  rw [H]
  norm_num

/-- C6 (amended): SparseBlockGemv.make_node rejects any wrong-rank
argument or non-integral index dtype with an error before any computation;
SparseBlockOuter.make_node performs no such validation (see the
counterexample theorem). -/
theorem claim6_gemv_validation (o W h inputIdx outputIdx : TensorMeta)
    (hbad : o.ndim ≠ 3 ∨ W.ndim ≠ 4 ∨ h.ndim ≠ 3 ∨ inputIdx.ndim ≠ 2 ∨
      outputIdx.ndim ≠ 2 ∨ inputIdx.dtype.isDiscrete = false ∨
      outputIdx.dtype.isDiscrete = false) :
    ∃ e, SparseBlockGemv_make_node o W h inputIdx outputIdx =
      Except.error e := by
  unfold SparseBlockGemv_make_node
  by_cases c1 : o.ndim ≠ 3
  · rw [if_pos c1]; exact ⟨_, rfl⟩
  rw [if_neg c1]
  by_cases c2 : W.ndim ≠ 4
  · rw [if_pos c2]; exact ⟨_, rfl⟩
  rw [if_neg c2]
  by_cases c3 : h.ndim ≠ 3
  · rw [if_pos c3]; exact ⟨_, rfl⟩
  rw [if_neg c3]
  by_cases c4 : inputIdx.ndim ≠ 2
  · rw [if_pos c4]; exact ⟨_, rfl⟩
  rw [if_neg c4]
  by_cases c5 : outputIdx.ndim ≠ 2
  · rw [if_pos c5]; exact ⟨_, rfl⟩
  rw [if_neg c5]
  by_cases c6 : ¬ inputIdx.dtype.isDiscrete
  · rw [if_pos c6]; exact ⟨_, rfl⟩
  rw [if_neg c6]
  by_cases c7 : ¬ outputIdx.dtype.isDiscrete
  · rw [if_pos c7]; exact ⟨_, rfl⟩
  rw [if_neg c7]
  exfalso
  rcases hbad with hb | hb | hb | hb | hb | hb | hb <;> simp_all

/-- Witness for C6 at a rank-2 o passed to the gemv op: construction
returns an error. -/
theorem claim6_gemv_validation_witness :
    ((⟨2, Dtype.float32⟩ : TensorMeta).ndim ≠ 3) ∧
    ∃ e, SparseBlockGemv_make_node ⟨2, Dtype.float32⟩ ⟨4, Dtype.float32⟩
      ⟨3, Dtype.float32⟩ ⟨2, Dtype.int32⟩ ⟨2, Dtype.int32⟩ =
      Except.error e :=
  ⟨by decide,
    claim6_gemv_validation ⟨2, Dtype.float32⟩ ⟨4, Dtype.float32⟩
      ⟨3, Dtype.float32⟩ ⟨2, Dtype.int32⟩ ⟨2, Dtype.int32⟩
      (Or.inl (by decide))⟩

/-- C6 (counterexample): SparseBlockOuter.make_node accepts a rank-2
accumulator o although rank 4 is required: construction succeeds instead
of failing, refuting the claim for the outer op. -/
theorem claim6_counterexample :
    (2 : ℕ) ≠ 4 ∧
    SparseBlockOuter_make_node ⟨2, Dtype.float32⟩ ⟨3, Dtype.float32⟩
      ⟨3, Dtype.float32⟩ ⟨2, Dtype.int32⟩ ⟨2, Dtype.int32⟩ none =
      Except.ok ⟨⟨2, Dtype.float32⟩, ⟨3, Dtype.float32⟩, ⟨3, Dtype.float32⟩,
        ⟨2, Dtype.int32⟩, ⟨2, Dtype.int32⟩, ⟨Dtype.float32, 1⟩,
        ⟨2, Dtype.float32⟩⟩ :=
  ⟨by decide, rfl⟩

/-- C7: sparse_block_dot is BlockGemv applied to the bias rows gathered
from the bias matrix at outputIdx, so each output block's bias value
appears exactly once in that block's result, however many input-window
positions contribute to it. -/
theorem claim7_sparse_block_dot (batch oWin iWin iSize : ℕ) (W : Tensor4)
    (h : Tensor3) (inputIdx : Idx2) (bias : ℕ → ℕ → ℚ) (outputIdx : Idx2)
    (b j k : ℕ) (hb : b < batch) (hj : j < oWin) :
    sparse_block_dot batch oWin iWin iSize W h inputIdx bias outputIdx =
      gemvPerform batch oWin iWin iSize (takeRows bias outputIdx) W h
        inputIdx outputIdx ∧
    sparse_block_dot batch oWin iWin iSize W h inputIdx bias outputIdx
        b j k =
      bias (outputIdx b j) k + ∑ i ∈ Finset.range iWin,
        dotVM iSize (h b i) (W (inputIdx b i) (outputIdx b j)) k := by
  refine ⟨rfl, ?_⟩
  unfold sparse_block_dot
  rw [gemvPerform_eval _ _ _ _ _ _ _ _ _ b j k hb hj]
  rfl

/-- Witness for C7 with an input window of size 2 whose both positions
target the same output block: the bias 10 is added once, giving
10 + (1 + 1) = 12, not 20 + 2. -/
theorem claim7_sparse_block_dot_witness :
    ((0 : ℕ) < 1 ∧ (0 : ℕ) < 1) ∧
    sparse_block_dot 1 1 2 1 (fun _ _ _ _ => 1) (fun _ _ _ => 1)
      (fun _ _ => 0) (fun _ _ => 10) (fun _ _ => 0) 0 0 0 = 12 := by
  refine ⟨⟨Nat.zero_lt_one, Nat.zero_lt_one⟩, ?_⟩
  have H := (claim7_sparse_block_dot 1 1 2 1 (fun _ _ _ _ => 1)
    (fun _ _ _ => 1) (fun _ _ => 0) (fun _ _ => 10) (fun _ _ => 0) 0 0 0
    Nat.zero_lt_one Nat.zero_lt_one).2
  rw [H]
  norm_num [dotVM]

/-- C8: the in-place and copy variants of both CPU kernels compute
numerically identical results; they differ only in whether the caller's o
buffer is mutated, and in copy mode that buffer is left untouched. -/
theorem claim8_inplace_copy_equiv (batch oWin iWin iSize xWin yWin : ℕ)
    (o : Tensor3) (W : Tensor4) (h : Tensor3) (iIdx oIdx : Idx2)
    (oo : Tensor4) (x y : Tensor3) (xIdx yIdx : Idx2) (alpha : ℚ) :
    (CpuSparseBlockGemv_run true batch oWin iWin iSize o W h iIdx oIdx).1 =
      (CpuSparseBlockGemv_run false batch oWin iWin iSize o W h iIdx oIdx).1 ∧
    (CpuSparseBlockGemv_run false batch oWin iWin iSize o W h iIdx oIdx).2 =
      o ∧
    (CpuSparseBlockOuter_run true batch xWin yWin oo x y xIdx yIdx alpha).1 =
      (CpuSparseBlockOuter_run false batch xWin yWin oo x y xIdx yIdx
        alpha).1 ∧
    (CpuSparseBlockOuter_run false batch xWin yWin oo x y xIdx yIdx
      alpha).2 = oo :=
  ⟨rfl, rfl, rfl, rfl⟩

/-- C9: requesting the gradient of SparseBlockOuter fails with the
explicit not-implemented error for every input, rather than returning any
result. -/
theorem claim9_outer_grad_not_implemented
    (inputs output_gradients : List TensorMeta) :
    SparseBlockOuter_grad inputs output_gradients =
      Except.error (.notImplementedError
        "SparseBlockOuter has no gradient implemented") := rfl

/-- C10: when SparseBlockOuter.make_node is called without an alpha
argument, the alpha input of the built node is the scalar constant 1 with
dtype float32, whatever the dtypes and ranks of o, x and y. -/
theorem claim10_default_alpha (o x y xIdx yIdx : TensorMeta) :
    SparseBlockOuter_make_node o x y xIdx yIdx none =
      Except.ok ⟨o, x, y, xIdx, yIdx, ⟨Dtype.float32, 1⟩,
        ⟨o.ndim, o.dtype⟩⟩ := rfl
